import Mathlib

/-!
Verification of the three-stage content pipeline (`src/jobs/filter.py`,
`src/jobs/fetch_content.py`, `src/jobs/curate.py`) via a shallow embedding.
Machine strings are lists of characters compared by code point, as Python
compares `str` values; Python dicts holding JSON data are association lists;
fallible Python code is embedded in `Except`, with the exception classes the
source distinguishes (`ValueError`, `KeyError`, `TypeError`) kept apart
because its `except` clauses only catch some of them.
-/

/-- Code-point lexicographic strict comparison on char lists: the order Python
uses when comparing strings with `<` / `>` (as `filter.py` line 41 does on
`published_at` values). -/
def charListLt : List Char → List Char → Bool
  | [], [] => false
  | [], _ :: _ => true
  | _ :: _, [] => false
  | a :: as, b :: bs =>
    if a < b then true
    else if b < a then false
    else charListLt as bs

/-- Python string `a < b`. -/
def pyStrLt (a b : String) : Bool := charListLt a.data b.data

/-- Python string `a <= b`, i.e. not `b < a`. -/
def pyStrLe (a b : String) : Bool := !(pyStrLt b a)

theorem charListLt_irrefl : ∀ l : List Char, charListLt l l = false := by
  intro l
  induction l with
  | nil => rfl
  | cons a as ih => simp [charListLt, lt_irrefl, ih]

theorem charListLt_asymm : ∀ u v : List Char,
    charListLt u v = true → charListLt v u = false := by
  intro u
  induction u with
  | nil =>
    intro v h
    cases v with
    | nil => rfl
    | cons b bs => rfl
  | cons a as ih =>
    intro v h
    cases v with
    | nil => simp [charListLt] at h
    | cons b bs =>
      simp only [charListLt] at h ⊢
      by_cases hab : a < b
      · simp [hab, lt_asymm hab]
      · by_cases hba : b < a
        · simp [hab, hba] at h
        · simp only [hab, hba, if_false] at h ⊢
          simp [ih bs h]

theorem charListLt_antisymm : ∀ u v : List Char,
    charListLt u v = false → charListLt v u = false → u = v := by
  intro u
  induction u with
  | nil =>
    intro v h1 _
    cases v with
    | nil => rfl
    | cons b bs => simp [charListLt] at h1
  | cons a as ih =>
    intro v h1 h2
    cases v with
    | nil => simp [charListLt] at h2
    | cons b bs =>
      simp only [charListLt] at h1 h2
      by_cases hab : a < b
      · simp [hab] at h1
      · by_cases hba : b < a
        · simp [hba, hab] at h2
        · have hc : a = b := le_antisymm (not_lt.mp hba) (not_lt.mp hab)
          subst hc
          simp only [lt_irrefl, if_false] at h1 h2
          rw [ih bs h1 h2]

theorem charListLt_le_lt_trans : ∀ u v w : List Char,
    charListLt u v = false → charListLt u w = true → charListLt v w = true := by
  intro u
  induction u with
  | nil =>
    intro v w h1 h2
    cases v with
    | nil => exact h2
    | cons b bs => simp [charListLt] at h1
  | cons a as ih =>
    intro v w h1 h2
    cases w with
    | nil => simp [charListLt] at h2
    | cons c cs =>
      cases v with
      | nil => rfl
      | cons b bs =>
        simp only [charListLt] at h1 h2 ⊢
        by_cases hab : a < b
        · simp [hab] at h1
        · by_cases hac : a < c
          · have hba : b ≤ a := not_lt.mp hab
            have hbc : b < c := lt_of_le_of_lt hba hac
            simp [hbc]
          · by_cases hca : c < a
            · simp [hac, hca] at h2
            · have hac2 : a = c := le_antisymm (not_lt.mp hca) (not_lt.mp hac)
              subst hac2
              simp only [hac, if_false] at h2
              by_cases hba : b < a
              · simp [hba]
              · have hba2 : a = b := le_antisymm (not_lt.mp hba) (not_lt.mp hab)
                subst hba2
                simp only [lt_irrefl, if_false] at h1 ⊢
                exact ih bs cs h1 h2

theorem pyStrLe_refl (a : String) : pyStrLe a a = true := by
  simp [pyStrLe, pyStrLt, charListLt_irrefl]

theorem pyStrLt_le (a b : String) (h : pyStrLt a b = true) : pyStrLe a b = true := by
  simp [pyStrLe, pyStrLt, charListLt_asymm _ _ h]

theorem pyStrLe_antisymm (a b : String) (h1 : pyStrLe a b = true) (h2 : pyStrLe b a = true) :
    a = b := by
  simp only [pyStrLe, pyStrLt, Bool.not_eq_true'] at h1 h2
  exact String.ext (charListLt_antisymm a.data b.data h2 h1)

theorem pyStr_le_lt_trans (a b c : String) (h1 : pyStrLe a b = true)
    (h2 : pyStrLt b c = true) : pyStrLt a c = true := by
  simp only [pyStrLe, pyStrLt, Bool.not_eq_true'] at h1 h2 ⊢
  exact charListLt_le_lt_trans b.data a.data c.data h1 h2

theorem pyStr_le_trans (a b c : String) (h1 : pyStrLe a b = true)
    (h2 : pyStrLe b c = true) : pyStrLe a c = true := by
  simp only [pyStrLe, pyStrLt, Bool.not_eq_true'] at h1 h2 ⊢
  by_cases h : charListLt c.data a.data = true
  · have hcon := charListLt_le_lt_trans c.data b.data a.data h2 h
    simp [h1] at hcon
  · simpa using h

/-! ## Change Detector (`src/jobs/filter.py`) -/

/-- One row of the known-state log or of the daily metadata cache.
`channel` and `published_at` are the two fields `filter.py` reads; `extra`
stands in for any further fields a cached metadata item carries (the raw
items are arbitrary dicts).  Entries appended to the log by
`filter_new_entries` carry only the two read fields, embedded as
`extra = ""`. -/
structure Entry where
  channel : String
  published_at : String
  extra : String
deriving DecidableEq

/-- Body of the loop of `deduplicate_current_entries` (filter.py lines 37-42):
`latest_entries` is a dict keyed by channel, embedded as a list with distinct
channels that preserves dict insertion order; an existing channel entry is
replaced in place when the new entry has a strictly greater `published_at`,
a new channel is appended. -/
def replaceLatest (e : Entry) (x : Entry) : Entry :=
  if x.channel = e.channel ∧ pyStrLt x.published_at e.published_at = true then e else x

def dedupStep (m : List Entry) (e : Entry) : List Entry :=
  if m.any (fun x => x.channel == e.channel) then m.map (replaceLatest e)
  else m ++ [e]

/-- Embedding of `deduplicate_current_entries` (filter.py lines 28-48): keep only the latest
entry for each channel. -/
def deduplicate_current_entries (current_entries : List Entry) : List Entry :=
  current_entries.foldl dedupStep []

/-- The `(channel, published_at)` pair used for membership tests
(filter.py line 91). -/
def entryPair (e : Entry) : String × String := (e.channel, e.published_at)

/-- The two-field dict appended to `current_entries` for a new item
(filter.py lines 103-106). -/
def projEntry (e : Entry) : Entry := Entry.mk e.channel e.published_at ""

/-- Whether the pair of an item is absent from the membership set built once from
the initial `current_entries` (filter.py line 100). -/
def isNew (cs : List (String × String)) (e : Entry) : Bool := !(decide (entryPair e ∈ cs))

/-- Body of the loop of `filter_new_entries` (filter.py lines 95-109): the
membership set `cs` is fixed (built before the loop); a new item is appended
to `new_entries` and its two-field projection to `current_entries`. -/
def filtStep (cs : List (String × String)) (acc : List Entry × List Entry) (item : Entry) :
    List Entry × List Entry :=
  if entryPair item ∈ cs then acc
  else (acc.1 ++ [item], acc.2 ++ [projEntry item])

/-- Embedding of `filter_new_entries` (filter.py lines 85-111): returns
`(new_entries, updated_current_entries)`. -/
def filter_new_entries (latest_retrieval current_entries : List Entry) :
    List Entry × List Entry :=
  List.foldl (filtStep (current_entries.map entryPair)) ([], current_entries) latest_retrieval

/-- A cache document as read by `load_latest_updates` (filter.py lines
135-146): a single dict is wrapped, a list is spliced, and a document that
fails to load (or is neither a dict nor a list) contributes nothing. -/
inductive CacheDoc where
  | single (item : Entry)
  | multi (items : List Entry)
  | other

/-- Embedding of `load_latest_updates` (filter.py lines 113-152): `none` when the cache
directory is missing or no cache files exist for the date; otherwise the
concatenation of all documents (which may be the empty list). -/
def load_latest_updates (cacheDirExists : Bool) (cache_files : List CacheDoc) :
    Option (List Entry) :=
  if cacheDirExists = false then none
  else if cache_files.isEmpty then none
  else some (cache_files.foldl (fun acc d =>
    match d with
    | CacheDoc.single i => acc ++ [i]
    | CacheDoc.multi l => acc ++ l
    | CacheDoc.other => acc) [])

/-- The two durable artifacts `main` of filter.py may write: the dated
content-request file and the known-state log (`current.json` or the gist);
`none` means the file was not written in this run. -/
structure FilterRun where
  contentRequestFile : Option (List Entry)
  savedLog : Option (List Entry)
deriving DecidableEq

/-- Embedding of `main` of filter.py (lines 261-298): short-circuits when the loaded cache
is `None` or empty, otherwise filters, deduplicates, and persists both
artifacts.  (`check_stale_subscriptions` only logs and is omitted.) -/
def filter_main (cacheDirExists : Bool) (cache_files : List CacheDoc)
    (current_entries : List Entry) : FilterRun :=
  match load_latest_updates cacheDirExists cache_files with
  | none => FilterRun.mk none none
  | some latest =>
    if latest.isEmpty then FilterRun.mk none none
    else
      let r := filter_new_entries latest current_entries
      FilterRun.mk (some r.1) (some (deduplicate_current_entries r.2))

/-! ## JSON values and Python primitives shared by the Retriever and Classifier -/

/-- A JSON value as produced by `json.loads` (numbers restricted to integers;
none of the verified code paths depends on float values). -/
inductive Json where
  | null
  | bool (b : Bool)
  | num (n : Int)
  | str (s : String)
  | arr (elems : List Json)
  | obj (fields : List (String × Json))

/-- The Python exception classes the verified code distinguishes. -/
inductive PyErr where
  | typeError
  | keyError
  | valueError
  | attributeError
deriving DecidableEq

/-- A Python dict holding JSON data (a full content record), embedded as an
association list in insertion order. -/
abbrev Record := List (String × Json)

/-- Python truthiness of a JSON value (`if not x`, `if x`). -/
def jsonTruthy : Json → Bool
  | Json.null => false
  | Json.bool b => b
  | Json.num n => decide (n ≠ 0)
  | Json.str s => !(s.isEmpty)
  | Json.arr xs => !(xs.isEmpty)
  | Json.obj fs => !(fs.isEmpty)

/-- Dict-field lookup keeping the last binding for a duplicated key, as a
Python dict built by `json.loads` would. -/
def jlookup (fs : List (String × Json)) (k : String) : Option Json :=
  fs.foldl (fun acc p => if p.1 = k then some p.2 else acc) none

/-- Python `item[k]`: `KeyError` for a missing key of a dict, `TypeError`
when `item` is not a dict. -/
def pyGetKey (item : Json) (k : String) : Except PyErr Json :=
  match item with
  | Json.obj fs =>
    match jlookup fs k with
    | some v => Except.ok v
    | none => Except.error PyErr.keyError
  | _ => Except.error PyErr.typeError

/-! ## Concurrent Retriever (`src/jobs/fetch_content.py`) -/

/-- One content request as read from `content_request_[date].json` (fields
fetched with `.get`, so the optional ones are `Option`). -/
structure ContentRequest where
  type : String
  channel : String
  source_url : Option String
  uid : Option String

/-- The behavior of the (out-of-scope) connector a request would reach:
its construction plus `get_latest_update_details` either raises, or returns
a value (`none` embeds Python `None`, `some r` a dict). -/
inductive ConnResult where
  | raises
  | returns (r : Option Record)

/-- The `try`/`except` boundary of `fetch_content_by_type` (lines 42-75):
a raised fault is caught and resolved to `None`; otherwise the return value of the connector
 is passed through. -/
def connCaught : ConnResult → Option Record
  | ConnResult.raises => none
  | ConnResult.returns r => r

/-- Embedding of `fetch_content_by_type` (fetch_content.py lines 25-75): dispatch on the
`type` string of the request; a website request without `source_url` and an
unsupported type both resolve to `None`. `conn` is the behavior of the
connector the request would reach. -/
def fetch_content_by_type (conn : ConnResult) (content_request : ContentRequest) :
    Option Record :=
  if content_request.type = "youtube" then connCaught conn
  else if content_request.type = "podcast" then connCaught conn
  else if content_request.type = "bilibili" then connCaught conn
  else if content_request.type = "website" then
    match content_request.source_url with
    | none => none
    | some _ => connCaught conn
  else none

/-- Python truthiness of a fetch result (`if content_details:` on line 125):
`None` and the empty dict are both falsy. -/
def recordTruthy : Option Record → Bool
  | none => false
  | some r => !(r.isEmpty)

/-- The result-processing loop of `main` (fetch_content.py lines 119-131):
truthy details are appended to `raw_results` and counted as successes, all
others as failures. -/
def processResults : (List Record × Nat × Nat) → List (Option Record) →
    List Record × Nat × Nat
  | acc, [] => acc
  | (raw, s, f), none :: rest => processResults (raw, s, f + 1) rest
  | (raw, s, f), some r :: rest =>
    if r.isEmpty then processResults (raw, s, f + 1) rest
    else processResults (raw ++ [r], s + 1, f) rest

/-- Keep a fetch result only when it is truthy (the compaction the
result-processing loop performs). -/
def truthyFilter : Option Record → Option Record
  | none => none
  | some r => if r.isEmpty then none else some r

/-- The state `main` of fetch_content.py leaves behind: the contents of
`raw_results_[date].json` and the two counters it logs. -/
structure FetchRun where
  raw_results : List Record
  success_count : Nat
  failure_count : Nat

/-- Embedding of `main` of fetch_content.py (lines 78-142): all requests are dispatched
and gathered in request order (`asyncio.gather` preserves order), with
`outcomes` giving the connector behavior of each request positionally; an empty
request list writes an empty results file and returns early. -/
def fetch_main (content_requests : List ContentRequest) (outcomes : List ConnResult) :
    FetchRun :=
  if content_requests.isEmpty then FetchRun.mk [] 0 0
  else
    let details := List.zipWith fetch_content_by_type outcomes content_requests
    let r := processResults ([], 0, 0) details
    FetchRun.mk r.1 r.2.1 r.2.2

/-! ## Classifier (`src/jobs/curate.py`) -/

/-- Embedding of `get_llm_curation` (curate.py lines 70-96): the service call and the
`json.loads` of its text response are external; their combined outcome is the
input (`none` embeds a response that is not valid JSON, in which case the
function logs and returns `None`, passed through here). -/
def get_llm_curation (parsedResponse : Option Json) : Option Json := parsedResponse

/-- Python `int(v)` on a JSON value, without underscore handling: digits with
an optional sign and surrounding whitespace parse, other strings raise
`ValueError`; bools coerce; `None`, lists and dicts raise `TypeError`. -/
def isPySpace (c : Char) : Bool := decide (c = ' ' ∨ c = '\t' ∨ c = '\n' ∨ c = '\r')

/-- Strip leading and trailing whitespace characters. -/
def stripChars (l : List Char) : List Char :=
  ((l.dropWhile isPySpace).reverse.dropWhile isPySpace).reverse

/-- Decimal value of a digit run. -/
def digitsVal (l : List Char) : Nat := l.foldl (fun acc c => 10 * acc + (c.toNat - 48)) 0

/-- Python `int(s)` on a string: `none` embeds `ValueError`. -/
def pyStrToInt (s : String) : Option Int :=
  let l := stripChars s.data
  if l.isEmpty then none
  else if l.head? = some '-' then
    (if (!l.tail.isEmpty) && l.tail.all Char.isDigit then
      some (-(digitsVal l.tail : Int)) else none)
  else if l.head? = some '+' then
    (if (!l.tail.isEmpty) && l.tail.all Char.isDigit then
      some ((digitsVal l.tail : Int)) else none)
  else if l.all Char.isDigit then some ((digitsVal l : Int)) else none

/-- Python `int(v)` on a JSON value. -/
def pyInt : Json → Except PyErr Int
  | Json.num n => Except.ok n
  | Json.bool b => Except.ok (if b then 1 else 0)
  | Json.str s =>
    match pyStrToInt s with
    | some n => Except.ok n
    | none => Except.error PyErr.valueError
  | _ => Except.error PyErr.typeError

/-- Python `for item in v`: lists iterate elements, strings iterate
characters, dicts iterate keys; other values raise `TypeError`. -/
def pyIter : Json → Except PyErr (List Json)
  | Json.arr xs => Except.ok xs
  | Json.str s => Except.ok (s.data.map (fun c => Json.str (String.mk [c])))
  | Json.obj fs => Except.ok (fs.map (fun p => Json.str p.1))
  | _ => Except.error PyErr.typeError

/-- Python `c.get(k, [])`: `AttributeError` when `c` is not a dict. -/
def pyGetDefault (c : Json) (k : String) : Except PyErr Json :=
  match c with
  | Json.obj fs => Except.ok ((jlookup fs k).getD (Json.arr []))
  | _ => Except.error PyErr.attributeError

/-- Embedding of `curated_content.get(bucket, [])` followed by iteration. -/
def getBucket (c : Json) (k : String) : Except PyErr (List Json) :=
  match pyGetDefault c k with
  | Except.error e => Except.error e
  | Except.ok v => pyIter v

/-- Python dict assignment `r[k] = v`: overwrite in place, else append. -/
def dictSet (r : Record) (k : String) (v : Json) : Record :=
  if r.any (fun p => p.1 == k) then r.map (fun p => if p.1 = k then (k, v) else p)
  else r ++ [(k, v)]

/-- One iteration of a bucket loop of `parse_curation_response` (curate.py
lines 121-131): the `try` body resolves `idx`, bounds-checks it, copies the
referenced record and attaches `reason`.  `except (ValueError, KeyError)`
drops the verdict (`ok none`); a `TypeError` is not caught and propagates. -/
def processVerdict (processed_data : List Record) (item : Json) :
    Except PyErr (Option Record) :=
  match pyGetKey item "idx" with
  | Except.error PyErr.typeError => Except.error PyErr.typeError
  | Except.error _ => Except.ok none
  | Except.ok v =>
    match pyInt v with
    | Except.error PyErr.typeError => Except.error PyErr.typeError
    | Except.error _ => Except.ok none
    | Except.ok index =>
      if hx : 0 ≤ index ∧ index < (processed_data.length : Int) then
        match pyGetKey item "reason" with
        | Except.error PyErr.typeError => Except.error PyErr.typeError
        | Except.error _ => Except.ok none
        | Except.ok reason =>
          Except.ok (some (dictSet (processed_data.get ⟨index.toNat, by omega⟩)
            "reason" reason))
      else Except.ok none

/-- One bucket loop of `parse_curation_response`: dropped verdicts are
skipped, retained ones appended in order, and an uncaught exception aborts
the whole parse. -/
def processBucket (processed_data : List Record) : List Json →
    Except PyErr (List Record)
  | [] => Except.ok []
  | item :: rest =>
    match processVerdict processed_data item with
    | Except.error e => Except.error e
    | Except.ok none => processBucket processed_data rest
    | Except.ok (some r) =>
      match processBucket processed_data rest with
      | Except.error e => Except.error e
      | Except.ok rs => Except.ok (r :: rs)

/-- The three bucket sequences `parse_curation_response` builds. -/
structure CurationResult where
  must_see : List Record
  might_be_interested : List Record
  you_may_skip : List Record

/-- Embedding of `parse_curation_response` (curate.py lines 99-159): `None` input (or any
falsy response) yields `None`; otherwise the three buckets are processed in
order; an uncaught exception propagates as `Except.error`. -/
def parse_curation_response (curated_content : Option Json)
    (processed_data : List Record) : Except PyErr (Option CurationResult) :=
  match curated_content with
  | none => Except.ok none
  | some c =>
    if jsonTruthy c = false then Except.ok none
    else
      match getBucket c "must_see" with
      | Except.error e => Except.error e
      | Except.ok ms =>
        match processBucket processed_data ms with
        | Except.error e => Except.error e
        | Except.ok msr =>
          match getBucket c "might_be_interested" with
          | Except.error e => Except.error e
          | Except.ok mi =>
            match processBucket processed_data mi with
            | Except.error e => Except.error e
            | Except.ok mir =>
              match getBucket c "you_may_skip" with
              | Except.error e => Except.error e
              | Except.ok ys =>
                match processBucket processed_data ys with
                | Except.error e => Except.error e
                | Except.ok ysr =>
                  Except.ok (some (CurationResult.mk msr mir ysr))

/-- Embedding of `curate_content` (curate.py lines 162-178). -/
def curate_content (parsedResponse : Option Json) (processed_data : List Record) :
    Except PyErr (Option CurationResult) :=
  parse_curation_response (get_llm_curation parsedResponse) processed_data

/-- Embedding of `main` of curate.py (lines 181-237): the returned value is the contents of
`curated_results_[date].json`, `none` when the file is not written (missing
input file, curation failure, or an uncaught exception). -/
def curate_main (processed_results : Option (List Record))
    (parsedResponse : Option Json) : Option CurationResult :=
  match processed_results with
  | none => none
  | some data =>
    match curate_content parsedResponse data with
    | Except.error _ => none
    | Except.ok none => none
    | Except.ok (some r) => some r

/-! ## Duration parsing (`curate.py` lines 17-61) -/

/-- The two input shapes `parse_duration_to_seconds` is specified for:
an `int` or a `str`. -/
inductive DurVal where
  | int (n : Int)
  | str (s : String)

/-- Embedding of the regex search for digits followed by the unit character `u`:
the accumulator carries the digit run in progress; the first maximal digit
run immediately followed by `u` is returned (matching the leftmost match of
the Python regex, since a shorter backtracked run would be followed by a
digit, not by `u`). -/
def findUnitAux (u : Char) : Option Nat → List Char → Option Nat
  | _, [] => none
  | acc, c :: rest =>
    if c.isDigit then findUnitAux u (some (10 * acc.getD 0 + (c.toNat - 48))) rest
    else if c = u then
      match acc with
      | some n => some n
      | none => findUnitAux u none rest
    else findUnitAux u none rest

/-- Search for the regex pattern of digits followed by the unit character `u`. -/
def findUnit (u : Char) (l : List Char) : Option Nat := findUnitAux u none l

/-- Python `s.isdigit()` (restricted to ASCII digits). -/
def isDigitString (s : String) : Bool := (!s.data.isEmpty) && s.data.all Char.isDigit

/-- Embedding of `parse_duration_to_seconds` (curate.py lines 17-61). -/
def parse_duration_to_seconds : DurVal → Int
  | DurVal.int n => n
  | DurVal.str s =>
    if isDigitString s then (digitsVal s.data : Int)
    else
      let hh := (findUnit 'h' s.data).getD 0
      let mm := (findUnit 'm' s.data).getD 0
      let ss := (findUnit 's' s.data).getD 0
      let total : Int := (3600 * hh + 60 * mm + ss : Nat)
      if total = 0 ∧ stripChars s.data ≠ [] then
        match pyStrToInt s with
        | some n => n
        | none => 0
      else total

/-! ## Deduplication invariant -/

theorem replaceLatest_channel (e x : Entry) : (replaceLatest e x).channel = x.channel := by
  by_cases hc : x.channel = e.channel ∧ pyStrLt x.published_at e.published_at = true
  · simp [replaceLatest, hc, hc.1]
  · simp [replaceLatest, hc]

/-- Invariant tying the `latest_entries` accumulator `m` of the dedup loop to
the prefix `seen` of entries already reduced: channels in `m` are distinct,
every seen channel is represented, and each accumulator entry is the first
occurrence in `seen` achieving the maximal `published_at` of its channel. -/
def DInv (seen m : List Entry) : Prop :=
  ((m.map Entry.channel).Nodup) ∧
  (∀ x ∈ seen, ∃ e ∈ m, e.channel = x.channel) ∧
  (∀ e ∈ m, ∃ p1 p2, seen = p1 ++ e :: p2 ∧
    (∀ x ∈ p1, x.channel = e.channel → pyStrLt x.published_at e.published_at = true) ∧
    (∀ x ∈ p2, x.channel = e.channel → pyStrLe x.published_at e.published_at = true))

theorem dedup_step_inv (seen m : List Entry) (z : Entry) (h : DInv seen m) :
    DInv (seen ++ [z]) (dedupStep m z) := by
  obtain ⟨hnd, hcov, hmax⟩ := h
  by_cases hin : m.any (fun x => x.channel == z.channel) = true
  · rw [dedupStep, if_pos hin]
    obtain ⟨y, hy, hych⟩ := List.any_eq_true.mp hin
    have hych2 : y.channel = z.channel := by simpa using hych
    refine ⟨?_, ?_, ?_⟩
    · have hmm : (m.map (replaceLatest z)).map Entry.channel = m.map Entry.channel := by
        rw [List.map_map]
        exact List.map_congr_left (fun x _ => replaceLatest_channel z x)
      rw [hmm]; exact hnd
    · intro x hx
      rcases List.mem_append.mp hx with hx | hx
      · obtain ⟨e, he, hech⟩ := hcov x hx
        exact ⟨replaceLatest z e, List.mem_map_of_mem _ he,
          by rw [replaceLatest_channel]; exact hech⟩
      · have hxz : x = z := by simpa using hx
        exact ⟨replaceLatest z y, List.mem_map_of_mem _ hy,
          by rw [replaceLatest_channel, hych2, hxz]⟩
    · intro ep hep
      obtain ⟨y0, hy0, hy0e⟩ := List.mem_map.mp hep
      obtain ⟨p1, p2, hseen, hp1, hp2⟩ := hmax y0 hy0
      by_cases hrep : y0.channel = z.channel ∧ pyStrLt y0.published_at z.published_at = true
      · have hez : ep = z := by rw [← hy0e]; simp [replaceLatest, hrep]
        subst hez
        refine ⟨seen, [], by simp, ?_, by simp⟩
        intro x hx hxch
        have hxy : x.channel = y0.channel := by rw [hxch, hrep.1]
        rw [hseen] at hx
        rcases List.mem_append.mp hx with hx | hx
        · exact pyStr_le_lt_trans _ _ _ (pyStrLt_le _ _ (hp1 x hx hxy)) hrep.2
        · rcases List.mem_cons.mp hx with hx | hx
          · rw [hx]; exact hrep.2
          · exact pyStr_le_lt_trans _ _ _ (hp2 x hx hxy) hrep.2
      · have hey : ep = y0 := by rw [← hy0e]; simp [replaceLatest, hrep]
        subst hey
        refine ⟨p1, p2 ++ [z], by rw [hseen]; simp, hp1, ?_⟩
        intro x hx hxch
        rcases List.mem_append.mp hx with hx | hx
        · exact hp2 x hx hxch
        · have hxz : x = z := by simpa using hx
          subst hxz
          cases hb : pyStrLt ep.published_at x.published_at with
          | true => exact absurd ⟨hxch.symm, hb⟩ hrep
          | false => simp [pyStrLe, hb]
  · rw [dedupStep, if_neg hin]
    have habs : ∀ x ∈ m, x.channel ≠ z.channel := by
      intro x hx hc
      exact hin (List.any_eq_true.mpr ⟨x, hx, by simpa using hc⟩)
    refine ⟨?_, ?_, ?_⟩
    · rw [List.map_append, List.nodup_append]
      refine ⟨hnd, by simp, ?_⟩
      intro a ha hb
      have hb2 : a = z.channel := by simpa using hb
      obtain ⟨x, hx, hxc⟩ := List.mem_map.mp ha
      exact habs x hx (hxc.trans hb2)
    · intro x hx
      rcases List.mem_append.mp hx with hx | hx
      · obtain ⟨e, he, hech⟩ := hcov x hx
        exact ⟨e, List.mem_append_left _ he, hech⟩
      · have hxz : x = z := by simpa using hx
        exact ⟨z, List.mem_append_right _ (by simp), by rw [hxz]⟩
    · intro e he
      rcases List.mem_append.mp he with he | he
      · obtain ⟨p1, p2, hseen, hp1, hp2⟩ := hmax e he
        refine ⟨p1, p2 ++ [z], by rw [hseen]; simp, hp1, ?_⟩
        intro x hx hxch
        rcases List.mem_append.mp hx with hx | hx
        · exact hp2 x hx hxch
        · have hxz : x = z := by simpa using hx
          rw [hxz] at hxch
          exact absurd hxch.symm (habs e he)
      · have hez : e = z := by simpa using he
        subst hez
        refine ⟨seen, [], by simp, ?_, by simp⟩
        intro x hx hxch
        obtain ⟨w, hw, hwch⟩ := hcov x hx
        exact absurd (hwch.trans hxch) (habs w hw)

theorem dedup_fold_inv : ∀ (l seen m : List Entry), DInv seen m →
    DInv (seen ++ l) (List.foldl dedupStep m l) := by
  intro l
  induction l with
  | nil => intro seen m h; simpa using h
  | cons z l ih =>
    intro seen m h
    have h2 := ih (seen ++ [z]) (dedupStep m z) (dedup_step_inv seen m z h)
    simpa using h2

theorem dedup_inv (l : List Entry) : DInv l (deduplicate_current_entries l) := by
  have h0 : DInv ([] : List Entry) [] := by
    refine ⟨by simp, by simp, by simp⟩
  have := dedup_fold_inv l [] [] h0
  simpa [deduplicate_current_entries] using this

theorem dedup_first_max (l : List Entry) :
    ∀ e ∈ deduplicate_current_entries l, ∃ p1 p2, l = p1 ++ e :: p2 ∧
      (∀ x ∈ p1, x.channel = e.channel → pyStrLt x.published_at e.published_at = true) ∧
      (∀ x ∈ p2, x.channel = e.channel → pyStrLe x.published_at e.published_at = true) :=
  (dedup_inv l).2.2

theorem dedup_covers (l : List Entry) :
    ∀ x ∈ l, ∃ e ∈ deduplicate_current_entries l, e.channel = x.channel :=
  (dedup_inv l).2.1

theorem dedup_channels_nodup (l : List Entry) :
    ((deduplicate_current_entries l).map Entry.channel).Nodup :=
  (dedup_inv l).1

theorem dedup_mem (l : List Entry) : ∀ e ∈ deduplicate_current_entries l, e ∈ l := by
  intro e he
  obtain ⟨p1, p2, hl, -, -⟩ := dedup_first_max l e he
  rw [hl]
  exact List.mem_append_right _ (List.mem_cons_self _ _)

theorem dedup_max (l : List Entry) : ∀ e ∈ deduplicate_current_entries l,
    ∀ x ∈ l, x.channel = e.channel → pyStrLe x.published_at e.published_at = true := by
  intro e he x hx hch
  obtain ⟨p1, p2, hl, hp1, hp2⟩ := dedup_first_max l e he
  rw [hl] at hx
  rcases List.mem_append.mp hx with hx | hx
  · exact pyStrLt_le _ _ (hp1 x hx hch)
  · rcases List.mem_cons.mp hx with hx | hx
    · rw [hx]; exact pyStrLe_refl _
    · exact hp2 x hx hch

/-! ## Characterization of filter_new_entries -/

theorem filtFold_eq (cs : List (String × String)) : ∀ (L : List Entry) (a b : List Entry),
    List.foldl (filtStep cs) (a, b) L
      = (a ++ L.filter (isNew cs), b ++ (L.filter (isNew cs)).map projEntry) := by
  intro L
  induction L with
  | nil => intro a b; simp
  | cons i L ih =>
    intro a b
    rw [List.foldl_cons]
    by_cases h : entryPair i ∈ cs
    · have hnew : isNew cs i = false := by simp [isNew, h]
      rw [show filtStep cs (a, b) i = (a, b) from by simp [filtStep, h]]
      rw [ih a b, List.filter_cons, hnew]
      simp
    · have hnew : isNew cs i = true := by simp [isNew, h]
      rw [show filtStep cs (a, b) i = (a ++ [i], b ++ [projEntry i]) from by
        simp [filtStep, h]]
      rw [ih, List.filter_cons, hnew]
      simp

theorem filter_new_entries_eq (latest current : List Entry) :
    filter_new_entries latest current
      = (latest.filter (isNew (current.map entryPair)),
         current ++ (latest.filter (isNew (current.map entryPair))).map projEntry) := by
  rw [filter_new_entries, filtFold_eq]
  simp

theorem filter_new_entries_fst (latest current : List Entry) :
    (filter_new_entries latest current).1
      = latest.filter (isNew (current.map entryPair)) := by
  rw [filter_new_entries_eq]

theorem filter_new_entries_snd (latest current : List Entry) :
    (filter_new_entries latest current).2
      = current ++ (latest.filter (isNew (current.map entryPair))).map projEntry := by
  rw [filter_new_entries_eq]

/-! ## Claim C3 -/

/-- C3: for every known-state log, `deduplicate_current_entries` returns
exactly as many entries as there are distinct channels, with pairwise distinct
channels, every input channel represented, and each returned entry an input
entry whose `published_at` is maximal for its channel under plain (code-point
lexicographic) string comparison. -/
theorem dedup_invariant_claim (l : List Entry) :
    (deduplicate_current_entries l).length = (l.map Entry.channel).toFinset.card ∧
    ((deduplicate_current_entries l).map Entry.channel).Nodup ∧
    (∀ x ∈ l, ∃ e ∈ deduplicate_current_entries l, e.channel = x.channel) ∧
    (∀ e ∈ deduplicate_current_entries l, e ∈ l ∧
      ∀ x ∈ l, x.channel = e.channel → pyStrLe x.published_at e.published_at = true) := by
  refine ⟨?_, dedup_channels_nodup l, dedup_covers l,
    fun e he => ⟨dedup_mem l e he, dedup_max l e he⟩⟩
  have hnd := dedup_channels_nodup l
  have hset : ((deduplicate_current_entries l).map Entry.channel).toFinset
      = (l.map Entry.channel).toFinset := by
    apply Finset.ext
    intro a
    simp only [List.mem_toFinset, List.mem_map]
    constructor
    · rintro ⟨e, he, rfl⟩
      exact ⟨e, dedup_mem l e he, rfl⟩
    · rintro ⟨x, hx, rfl⟩
      obtain ⟨e, he, hch⟩ := dedup_covers l x hx
      exact ⟨e, he, hch⟩
  calc (deduplicate_current_entries l).length
      = ((deduplicate_current_entries l).map Entry.channel).length :=
        (List.length_map _ _).symm
    _ = ((deduplicate_current_entries l).map Entry.channel).toFinset.card :=
        (List.toFinset_card_of_nodup hnd).symm
    _ = (l.map Entry.channel).toFinset.card := by rw [hset]

/-! ## Claim C4 -/

/-- C4 counterexample: with two occurrences of the same channel carrying an
equal `published_at` string, the reduction keeps the EARLIER occurrence (the
dict update requires a strictly greater `published_at`), not the later one as
the claim states. -/
theorem dedup_tiebreak_cex :
    deduplicate_current_entries
        [Entry.mk "c" "2024" "first", Entry.mk "c" "2024" "second"]
      = [Entry.mk "c" "2024" "first"] ∧
    Entry.mk "c" "2024" "first" ≠ Entry.mk "c" "2024" "second" :=
  ⟨by decide, by decide⟩

/-- C4 (amended): tie-break of `deduplicate_current_entries` — every kept
entry is the FIRST occurrence in the input achieving the maximal
`published_at` of its channel: all earlier same-channel occurrences are
strictly smaller and all later ones (including any tied at an equal
`published_at`) are at most equal, so among tied occurrences the earlier one
wins. -/
theorem dedup_tiebreak_amended (l : List Entry) :
    ∀ e ∈ deduplicate_current_entries l, ∃ p1 p2, l = p1 ++ e :: p2 ∧
      (∀ x ∈ p1, x.channel = e.channel → pyStrLt x.published_at e.published_at = true) ∧
      (∀ x ∈ p2, x.channel = e.channel → pyStrLe x.published_at e.published_at = true) :=
  dedup_first_max l

theorem dedup_tiebreak_amended_witness :
    ∃ p1 p2, [Entry.mk "c" "2024" "first", Entry.mk "c" "2024" "second"]
        = p1 ++ (Entry.mk "c" "2024" "first") :: p2 ∧
      (∀ x ∈ p1, x.channel = (Entry.mk "c" "2024" "first").channel →
        pyStrLt x.published_at (Entry.mk "c" "2024" "first").published_at = true) ∧
      (∀ x ∈ p2, x.channel = (Entry.mk "c" "2024" "first").channel →
        pyStrLe x.published_at (Entry.mk "c" "2024" "first").published_at = true) :=
  dedup_tiebreak_amended _ (Entry.mk "c" "2024" "first") (by decide)

/-! ## Claim C1 -/

/-- C1 counterexample: a cache holding two same-channel items with different
`published_at` values defeats idempotence.  The first run persists only the
channel maximum in the deduplicated log, so the pair of the older item is absent
from the persisted log and the item is emitted again by the second run. -/
theorem idempotent_rerun_cex :
    (filter_new_entries [Entry.mk "c" "2024-01-02" "", Entry.mk "c" "2024-01-01" ""]
      (deduplicate_current_entries
        (filter_new_entries
          [Entry.mk "c" "2024-01-02" "", Entry.mk "c" "2024-01-01" ""] []).2)).1
      ≠ [] := by decide

/-- C1 (amended): idempotent re-run of the Change Detector, provided the
daily cache carries a single `published_at` per channel and every cache item
is at least as new (under plain string comparison) as every known-state entry
of its channel.  Then a second run against the same cache, reading the log
persisted by the first run (`filter_new_entries` followed by
`deduplicate_current_entries`), yields zero new entries. -/
theorem idempotent_rerun_amended (cache known : List Entry)
    (hone : ∀ i ∈ cache, ∀ j ∈ cache, i.channel = j.channel →
      i.published_at = j.published_at)
    (hmax : ∀ i ∈ cache, ∀ e ∈ known, e.channel = i.channel →
      pyStrLe e.published_at i.published_at = true) :
    (filter_new_entries cache
      (deduplicate_current_entries (filter_new_entries cache known).2)).1 = [] := by
  rw [filter_new_entries_fst]
  refine List.filter_eq_nil_iff.mpr ?_
  intro item hitem
  have hmem : entryPair item ∈
      List.map entryPair (deduplicate_current_entries (filter_new_entries cache known).2) := by
    have hyex : ∃ y ∈ (filter_new_entries cache known).2,
        y.channel = item.channel ∧ y.published_at = item.published_at := by
      rw [filter_new_entries_snd]
      by_cases hin : entryPair item ∈ known.map entryPair
      · obtain ⟨k, hk, hkp⟩ := List.mem_map.mp hin
        exact ⟨k, List.mem_append_left _ hk,
          congrArg Prod.fst hkp, congrArg Prod.snd hkp⟩
      · refine ⟨projEntry item, List.mem_append_right _ ?_, rfl, rfl⟩
        apply List.mem_map_of_mem
        rw [List.mem_filter]
        exact ⟨hitem, by simp [isNew, hin]⟩
    obtain ⟨y, hy, hych, hypub⟩ := hyex
    obtain ⟨e, he, hech⟩ := dedup_covers _ y hy
    have hle1 : pyStrLe y.published_at e.published_at = true :=
      dedup_max _ e he y hy hech.symm
    have hle2 : pyStrLe e.published_at item.published_at = true := by
      have hemem : e ∈ (filter_new_entries cache known).2 := dedup_mem _ e he
      rw [filter_new_entries_snd] at hemem
      rcases List.mem_append.mp hemem with hek | hep
      · exact hmax item hitem e hek (hech.trans hych)
      · obtain ⟨j, hj, hje⟩ := List.mem_map.mp hep
        have hjc : j ∈ cache := (List.mem_filter.mp hj).1
        have hjch : j.channel = item.channel := by
          have hh : e.channel = j.channel := by rw [← hje]; rfl
          rw [← hh, hech, hych]
        have hpub : j.published_at = item.published_at := hone j hjc item hitem hjch
        have hepub : e.published_at = j.published_at := by rw [← hje]; rfl
        rw [hepub, hpub]
        exact pyStrLe_refl _
    have hle3 : pyStrLe item.published_at e.published_at = true := by
      rw [← hypub]; exact hle1
    have heq : e.published_at = item.published_at := pyStrLe_antisymm _ _ hle2 hle3
    have hpe : entryPair e = entryPair item := by
      rw [entryPair, entryPair, hech, hych, heq]
    rw [← hpe]
    exact List.mem_map_of_mem _ he
  simp [isNew, hmem]

theorem idempotent_rerun_amended_witness :
    (filter_new_entries [Entry.mk "a" "2025-01-05" "", Entry.mk "b" "2025-01-06" ""]
      (deduplicate_current_entries
        (filter_new_entries [Entry.mk "a" "2025-01-05" "", Entry.mk "b" "2025-01-06" ""]
          [Entry.mk "a" "2025-01-01" ""]).2)).1 = [] :=
  idempotent_rerun_amended _ _ (by decide) (by decide)

/-! ## Claim C5 -/

/-- C5 counterexample: with cache files present for the day but holding no
items (the loaded cache is the empty list), the Change Detector writes NO
content-request file at all — it does not produce an empty one as the claim
states (it returns before `save_content_requests`). -/
theorem empty_cache_cex :
    (filter_main true [CacheDoc.multi []] [Entry.mk "a" "2025-01-01" ""]).contentRequestFile
      ≠ some [] := by decide

/-- C5 (amended): when the daily metadata cache is missing or empty
(`load_latest_updates` returns `None` or an empty list), `main` of filter.py
writes neither artifact: no content-request file is created and the
known-state log is not rewritten, leaving it byte-for-byte unchanged. -/
theorem empty_cache_short_circuit (cacheDirExists : Bool) (files : List CacheDoc)
    (known : List Entry)
    (h : load_latest_updates cacheDirExists files = none ∨
         load_latest_updates cacheDirExists files = some []) :
    filter_main cacheDirExists files known = FilterRun.mk none none := by
  rcases h with h | h <;> simp [filter_main, h]

theorem empty_cache_short_circuit_witness :
    filter_main true [CacheDoc.multi []] [Entry.mk "a" "2025-01-01" ""]
      = FilterRun.mk none none :=
  empty_cache_short_circuit true [CacheDoc.multi []] [Entry.mk "a" "2025-01-01" ""]
    (Or.inr (by decide))

/-! ## Retriever lemmas -/

theorem processResults_spec : ∀ (ds : List (Option Record)) (raw : List Record) (s f : Nat),
    processResults (raw, s, f) ds
      = (raw ++ ds.filterMap truthyFilter, s + (ds.filterMap truthyFilter).length,
         f + (ds.length - (ds.filterMap truthyFilter).length)) := by
  intro ds
  induction ds with
  | nil => intro raw s f; simp [processResults]
  | cons d rest ih =>
    intro raw s f
    have hc : (rest.filterMap truthyFilter).length ≤ rest.length :=
      List.length_filterMap_le _ _
    cases d with
    | none =>
      have h1 : processResults (raw, s, f) (none :: rest)
          = processResults (raw, s, f + 1) rest := rfl
      rw [h1, ih]
      have hfm : (none :: rest).filterMap truthyFilter = rest.filterMap truthyFilter := by
        simp [List.filterMap_cons, truthyFilter]
      rw [hfm]
      simp only [Prod.mk.injEq, List.length_cons]
      exact ⟨trivial, trivial, by omega⟩
    | some r =>
      by_cases hr : r.isEmpty
      · have h1 : processResults (raw, s, f) (some r :: rest)
            = processResults (raw, s, f + 1) rest := by
          simp [processResults, hr]
        rw [h1, ih]
        have hfm : (some r :: rest).filterMap truthyFilter
            = rest.filterMap truthyFilter := by
          simp [List.filterMap_cons, truthyFilter, hr]
        rw [hfm]
        simp only [Prod.mk.injEq, List.length_cons]
        exact ⟨trivial, trivial, by omega⟩
      · have h1 : processResults (raw, s, f) (some r :: rest)
            = processResults (raw ++ [r], s + 1, f) rest := by
          simp [processResults, hr]
        rw [h1, ih]
        have hfm : (some r :: rest).filterMap truthyFilter
            = r :: rest.filterMap truthyFilter := by
          simp [List.filterMap_cons, truthyFilter, hr]
        rw [hfm]
        simp only [Prod.mk.injEq, List.length_cons]
        exact ⟨by simp, by omega, by omega⟩

theorem fetch_main_eq (requests : List ContentRequest) (outcomes : List ConnResult) :
    fetch_main requests outcomes
      = FetchRun.mk
          ((List.zipWith fetch_content_by_type outcomes requests).filterMap truthyFilter)
          ((List.zipWith fetch_content_by_type outcomes requests).filterMap
            truthyFilter).length
          ((List.zipWith fetch_content_by_type outcomes requests).length
            - ((List.zipWith fetch_content_by_type outcomes requests).filterMap
              truthyFilter).length) := by
  unfold fetch_main
  by_cases hreq : requests.isEmpty
  · have h0 : requests = [] := List.isEmpty_iff.mp hreq
    subst h0
    simp
  · rw [if_neg hreq]
    simp only [processResults_spec, List.nil_append, Nat.zero_add]

theorem fetch_raises_none (req : ContentRequest) :
    fetch_content_by_type ConnResult.raises req = none := by
  unfold fetch_content_by_type
  by_cases h1 : req.type = "youtube"
  · simp [h1, connCaught]
  · by_cases h2 : req.type = "podcast"
    · simp [h1, h2, connCaught]
    · by_cases h3 : req.type = "bilibili"
      · simp [h1, h2, h3, connCaught]
      · by_cases h4 : req.type = "website"
        · simp only [h1, h2, h3, h4, if_true, if_false]
          cases req.source_url <;> simp [connCaught]
        · simp [h1, h2, h3, h4]

theorem fetch_website_missing_url (conn : ConnResult) (ch : String) (uid : Option String) :
    fetch_content_by_type conn (ContentRequest.mk "website" ch none uid) = none := by
  simp [fetch_content_by_type]

theorem zipWith_set_left {α β γ : Type} (f : α → β → γ) :
    ∀ (as : List α) (bs : List β) (i : Nat) (x : α), i < as.length →
      ∀ (hib : i < bs.length),
      List.zipWith f (as.set i x) bs
        = (List.zipWith f as bs).set i (f x (bs.get ⟨i, hib⟩)) := by
  intro as
  induction as with
  | nil => intro bs i x hia hib; simp at hia
  | cons a as ih =>
    intro bs i x hia hib
    cases bs with
    | nil => simp at hib
    | cons b bs =>
      cases i with
      | zero => simp
      | succ n =>
        have hia2 : n < as.length := by simpa using hia
        have hib2 : n < bs.length := by simpa using hib
        simp only [List.set_cons_succ, List.zipWith_cons_cons, List.get_cons_succ]
        rw [ih bs n x hia2 hib2]

theorem filterMap_truthy_set_none (ds : List (Option Record)) :
    ∀ (i : Nat) (hi : i < ds.length), recordTruthy (ds.get ⟨i, hi⟩) = false →
      (ds.set i none).filterMap truthyFilter = ds.filterMap truthyFilter := by
  induction ds with
  | nil => intro i hi; simp at hi
  | cons d rest ih =>
    intro i hi hf
    cases i with
    | zero =>
      have hd : truthyFilter d = none := by
        cases d with
        | none => rfl
        | some r =>
          have hr : r.isEmpty = true := by simpa [recordTruthy] using hf
          simp [truthyFilter, hr]
      simp [List.set_cons_zero, List.filterMap_cons, hd,
        show truthyFilter none = none from rfl]
    | succ n =>
      have hi2 : n < rest.length := by simpa using hi
      have hf2 : recordTruthy (rest.get ⟨n, hi2⟩) = false := by simpa using hf
      simp only [List.set_cons_succ, List.filterMap_cons]
      rw [ih n hi2 hf2]

/-! ## Claim C2 -/

/-- C2: Retriever partial-failure isolation with order-preserving compaction:
any fault raised inside the connector of a single request (and a missing
source_url for a website request) resolves to an absent result for that
request only; the stage output is exactly the in-order compaction of the
truthy per-request results, success_count is its length, and
success_count + failure_count covers the whole batch. -/
theorem retriever_fault_isolation (requests : List ContentRequest)
    (outcomes : List ConnResult) (h : outcomes.length = requests.length) :
    (fetch_main requests outcomes).raw_results
      = (List.zipWith fetch_content_by_type outcomes requests).filterMap truthyFilter ∧
    (fetch_main requests outcomes).success_count
      = (fetch_main requests outcomes).raw_results.length ∧
    (fetch_main requests outcomes).success_count
      + (fetch_main requests outcomes).failure_count = requests.length ∧
    (∀ req, fetch_content_by_type ConnResult.raises req = none) ∧
    (∀ conn ch uid,
      fetch_content_by_type conn (ContentRequest.mk "website" ch none uid) = none) := by
  have hlen : (List.zipWith fetch_content_by_type outcomes requests).length
      = requests.length := by
    rw [List.length_zipWith, h, Nat.min_self]
  have hle := List.length_filterMap_le truthyFilter
    (List.zipWith fetch_content_by_type outcomes requests)
  have h3 : (fetch_main requests outcomes).success_count
      + (fetch_main requests outcomes).failure_count = requests.length := by
    rw [fetch_main_eq]
    show ((List.zipWith fetch_content_by_type outcomes requests).filterMap
        truthyFilter).length
      + ((List.zipWith fetch_content_by_type outcomes requests).length
        - ((List.zipWith fetch_content_by_type outcomes requests).filterMap
          truthyFilter).length) = requests.length
    omega
  refine ⟨by rw [fetch_main_eq], by rw [fetch_main_eq], h3,
    fetch_raises_none, fun conn ch uid => fetch_website_missing_url conn ch uid⟩

def wreq (i : String) : ContentRequest := ContentRequest.mk "youtube" i none none

def wrec (i : String) : Record := [("title", Json.str i)]

theorem retriever_fault_isolation_witness :
    ([ConnResult.returns (some (wrec "1")), ConnResult.returns (some (wrec "2")),
      ConnResult.raises, ConnResult.returns (some (wrec "4")),
      ConnResult.returns (some (wrec "5"))] : List ConnResult).length
      = ([wreq "1", wreq "2", wreq "3", wreq "4", wreq "5"] :
          List ContentRequest).length ∧
    (fetch_main [wreq "1", wreq "2", wreq "3", wreq "4", wreq "5"]
      [ConnResult.returns (some (wrec "1")), ConnResult.returns (some (wrec "2")),
       ConnResult.raises, ConnResult.returns (some (wrec "4")),
       ConnResult.returns (some (wrec "5"))]).raw_results
      = [wrec "1", wrec "2", wrec "4", wrec "5"] ∧
    (fetch_main [wreq "1", wreq "2", wreq "3", wreq "4", wreq "5"]
      [ConnResult.returns (some (wrec "1")), ConnResult.returns (some (wrec "2")),
       ConnResult.raises, ConnResult.returns (some (wrec "4")),
       ConnResult.returns (some (wrec "5"))]).success_count = 4 ∧
    (fetch_main [wreq "1", wreq "2", wreq "3", wreq "4", wreq "5"]
      [ConnResult.returns (some (wrec "1")), ConnResult.returns (some (wrec "2")),
       ConnResult.raises, ConnResult.returns (some (wrec "4")),
       ConnResult.returns (some (wrec "5"))]).failure_count = 1 ∧
    (fetch_main [wreq "1", wreq "2", wreq "3", wreq "4", wreq "5"]
      [ConnResult.returns (some (wrec "1")), ConnResult.returns (some (wrec "2")),
       ConnResult.raises, ConnResult.returns (some (wrec "4")),
       ConnResult.returns (some (wrec "5"))]).success_count
      + (fetch_main [wreq "1", wreq "2", wreq "3", wreq "4", wreq "5"]
        [ConnResult.returns (some (wrec "1")), ConnResult.returns (some (wrec "2")),
         ConnResult.raises, ConnResult.returns (some (wrec "4")),
         ConnResult.returns (some (wrec "5"))]).failure_count = 5 :=
  ⟨rfl, rfl, rfl, rfl, (retriever_fault_isolation _ _ rfl).2.2.1⟩

/-! ## Claim C8 -/

/-- C8 counterexample: a request whose type field is the spec enum value
"video" resolves to the unsupported-content-type failure result (None) even
though its connector would return a nonempty record — it does not reach any
connector branch.  (The code dispatches on the literal strings youtube /
podcast / bilibili / website.) -/
theorem retriever_dispatch_cex :
    fetch_content_by_type (ConnResult.returns (some [("title", Json.str "t")]))
        (ContentRequest.mk "video" "chan" none none) = none ∧
    connCaught (ConnResult.returns (some [("title", Json.str "t")]))
      = some [("title", Json.str "t")] :=
  ⟨rfl, rfl⟩

/-- C8 (amended): Retriever dispatch over the type values of the code — for a
request whose type is youtube, podcast or bilibili, and for a website request
carrying a source_url, the per-request result is exactly the caught connector
outcome (the request reaches the connector branch of that type rather than the
unsupported-content-type failure); a website request without source_url is a
per-item failure decided before the connector is consulted. -/
theorem retriever_dispatch_amended (conn : ConnResult) (req : ContentRequest) :
    ((req.type = "youtube" ∨ req.type = "podcast" ∨ req.type = "bilibili") →
      fetch_content_by_type conn req = connCaught conn) ∧
    (req.type = "website" → ∀ u, req.source_url = some u →
      fetch_content_by_type conn req = connCaught conn) ∧
    (req.type = "website" → req.source_url = none →
      fetch_content_by_type conn req = none) := by
  refine ⟨?_, ?_, ?_⟩
  · rintro (h | h | h) <;> simp [fetch_content_by_type, h]
  · intro h u hu
    simp [fetch_content_by_type, h, hu]
  · intro h hu
    simp [fetch_content_by_type, h, hu]

theorem retriever_dispatch_amended_witness :
    fetch_content_by_type (ConnResult.returns (some [("title", Json.str "t")]))
        (ContentRequest.mk "youtube" "chan" none none)
      = connCaught (ConnResult.returns (some [("title", Json.str "t")])) :=
  (retriever_dispatch_amended _ _).1 (Or.inl rfl)

/-! ## Claim C10 -/

/-- C10: falsy retrieval results count as failures and the counts always
partition the batch: success_count plus failure_count equals the number of
requests, the raw-results output has length success_count, and replacing the
connector outcome of any request whose per-request result is falsy (None or
an empty record) by a raising one leaves the entire stage output unchanged
— a falsy success is recorded exactly as if the request had raised. -/
theorem fetch_counts_partition (requests : List ContentRequest)
    (outcomes : List ConnResult) (h : outcomes.length = requests.length) :
    (fetch_main requests outcomes).success_count
      + (fetch_main requests outcomes).failure_count = requests.length ∧
    (fetch_main requests outcomes).raw_results.length
      = (fetch_main requests outcomes).success_count ∧
    (∀ i (hi : i < outcomes.length),
      recordTruthy (fetch_content_by_type (outcomes.get ⟨i, hi⟩)
        (requests.get ⟨i, h ▸ hi⟩)) = false →
      fetch_main requests (outcomes.set i ConnResult.raises)
        = fetch_main requests outcomes) := by
  have hlen : (List.zipWith fetch_content_by_type outcomes requests).length
      = requests.length := by
    rw [List.length_zipWith, h, Nat.min_self]
  have hle := List.length_filterMap_le truthyFilter
    (List.zipWith fetch_content_by_type outcomes requests)
  refine ⟨?_, by rw [fetch_main_eq], ?_⟩
  · rw [fetch_main_eq]
    show ((List.zipWith fetch_content_by_type outcomes requests).filterMap
        truthyFilter).length
      + ((List.zipWith fetch_content_by_type outcomes requests).length
        - ((List.zipWith fetch_content_by_type outcomes requests).filterMap
          truthyFilter).length) = requests.length
    omega
  · intro i hi hf
    have hir : i < requests.length := h ▸ hi
    have hiz : i < (List.zipWith fetch_content_by_type outcomes requests).length := by
      omega
    have hZset : List.zipWith fetch_content_by_type (outcomes.set i ConnResult.raises)
        requests
        = (List.zipWith fetch_content_by_type outcomes requests).set i none := by
      rw [zipWith_set_left fetch_content_by_type outcomes requests i
        ConnResult.raises hi hir]
      rw [fetch_raises_none]
    have hgz : (List.zipWith fetch_content_by_type outcomes requests).get ⟨i, hiz⟩
        = fetch_content_by_type (outcomes.get ⟨i, hi⟩) (requests.get ⟨i, hir⟩) := by
      simp [List.get_eq_getElem, List.getElem_zipWith]
    rw [fetch_main_eq, fetch_main_eq, hZset,
      filterMap_truthy_set_none _ i hiz (by rw [hgz]; exact hf), List.length_set]

theorem fetch_counts_partition_witness :
    (fetch_main [wreq "1", wreq "2"]
        [ConnResult.returns (some (wrec "1")),
         ConnResult.returns (some [])]).success_count
      + (fetch_main [wreq "1", wreq "2"]
        [ConnResult.returns (some (wrec "1")),
         ConnResult.returns (some [])]).failure_count = 2 ∧
    fetch_main [wreq "1", wreq "2"]
        (([ConnResult.returns (some (wrec "1")),
           ConnResult.returns (some [])] : List ConnResult).set 1 ConnResult.raises)
      = fetch_main [wreq "1", wreq "2"]
        [ConnResult.returns (some (wrec "1")), ConnResult.returns (some [])] :=
  ⟨(fetch_counts_partition _ _ rfl).1,
   (fetch_counts_partition _ _ rfl).2.2 1 (by decide) rfl⟩

/-! ## Claim C6 -/

/-- C6: Classifier all-or-nothing on parse failure: when the judgment
response text of the judgment service is not valid JSON (embedded as a `none` parse
outcome), `get_llm_curation` returns None, `curate_content` returns None
without raising, and `main` writes no curated-results artifact at all — the
output file is never created or partially written. -/
theorem classifier_all_or_nothing (processed_results : Option (List Record))
    (data : List Record) :
    get_llm_curation none = none ∧
    curate_content none data = Except.ok none ∧
    curate_main processed_results none = none := by
  refine ⟨rfl, rfl, ?_⟩
  cases processed_results <;> rfl

/-! ## Claim C7 -/

/-- C7 counterexample: a verdict whose idx is JSON null is "not interpretable
as an integer", yet `parse_curation_response` raises instead of dropping it:
Python `int(None)` raises `TypeError`, which `except (ValueError, KeyError)`
does not catch, so the whole parse aborts. -/
theorem verdict_bounds_cex :
    parse_curation_response
      (some (Json.obj [("must_see",
          Json.arr [Json.obj [("idx", Json.null), ("reason", Json.str "r")]]),
        ("might_be_interested", Json.arr []),
        ("you_may_skip", Json.arr [])]))
      [[("title", Json.str "a")]]
      = Except.error PyErr.typeError := rfl

/-- The in-order compaction of the retained verdicts of one bucket. -/
def bucketOut (processed_data : List Record) (items : List Json) : List Record :=
  items.filterMap (fun item =>
    match processVerdict processed_data item with
    | Except.ok r => r
    | Except.error _ => none)

theorem processBucket_safe (processed_data : List Record) :
    ∀ (items : List Json),
      (∀ item ∈ items, ∀ e, processVerdict processed_data item ≠ Except.error e) →
      processBucket processed_data items
        = Except.ok (bucketOut processed_data items) := by
  intro items
  induction items with
  | nil => intro h; rfl
  | cons item rest ih =>
    intro h
    have hitem := h item (List.mem_cons_self _ _)
    have hrest : ∀ x ∈ rest, ∀ e, processVerdict processed_data x ≠ Except.error e :=
      fun x hx => h x (List.mem_cons_of_mem _ hx)
    cases hv : processVerdict processed_data item with
    | error e => exact absurd hv (hitem e)
    | ok r =>
      cases r with
      | none =>
        simp only [processBucket, hv]
        rw [ih hrest]
        simp [bucketOut, List.filterMap_cons, hv]
      | some rec0 =>
        simp only [processBucket, hv]
        rw [ih hrest]
        simp [bucketOut, List.filterMap_cons, hv]

/-- C7 (amended): verdict bounds safety for the faults the except clause
actually covers: a verdict whose idx field is missing, is a string that does
not parse as an integer, or resolves to an index outside [0, len(batch)), or
which lacks its reason field, is dropped (ok none) without raising; whenever
every verdict of the three buckets avoids an uncaught TypeError, the parse
returns the bucket-wise in-order compaction of retained verdicts, each
retained verdict contributing a copy of the record at batch[idx] with reason
attached.  (A verdict whose idx is null, a list or a dict raises an uncaught
TypeError aborting the parse — see the counterexample.) -/
theorem verdict_bounds_amended (processed_data : List Record) (c : Json)
    (ms mi ys : List Json)
    (ht : jsonTruthy c = true)
    (hms : getBucket c "must_see" = Except.ok ms)
    (hmi : getBucket c "might_be_interested" = Except.ok mi)
    (hys : getBucket c "you_may_skip" = Except.ok ys)
    (hsafe : ∀ item ∈ ms ++ mi ++ ys, ∀ e,
      processVerdict processed_data item ≠ Except.error e) :
    parse_curation_response (some c) processed_data
      = Except.ok (some (CurationResult.mk (bucketOut processed_data ms)
          (bucketOut processed_data mi) (bucketOut processed_data ys))) ∧
    (∀ fs, jlookup fs "idx" = none →
      processVerdict processed_data (Json.obj fs) = Except.ok none) ∧
    (∀ fs s, jlookup fs "idx" = some (Json.str s) → pyStrToInt s = none →
      processVerdict processed_data (Json.obj fs) = Except.ok none) ∧
    (∀ fs n, jlookup fs "idx" = some (Json.num n) →
      (n < 0 ∨ (processed_data.length : Int) ≤ n) →
      processVerdict processed_data (Json.obj fs) = Except.ok none) ∧
    (∀ fs n, jlookup fs "idx" = some (Json.num n) → 0 ≤ n →
      n < (processed_data.length : Int) → jlookup fs "reason" = none →
      processVerdict processed_data (Json.obj fs) = Except.ok none) ∧
    (∀ fs n r (h0 : 0 ≤ n) (hn : n < (processed_data.length : Int)),
      jlookup fs "idx" = some (Json.num n) → jlookup fs "reason" = some r →
      processVerdict processed_data (Json.obj fs)
        = Except.ok (some (dictSet (processed_data.get ⟨n.toNat, by omega⟩)
            "reason" r))) := by
  have hsm : ∀ item ∈ ms, ∀ e, processVerdict processed_data item ≠ Except.error e :=
    fun item hi => hsafe item (by simp [hi])
  have hsi : ∀ item ∈ mi, ∀ e, processVerdict processed_data item ≠ Except.error e :=
    fun item hi => hsafe item (by simp [hi])
  have hsy : ∀ item ∈ ys, ∀ e, processVerdict processed_data item ≠ Except.error e :=
    fun item hi => hsafe item (by simp [hi])
  refine ⟨?_, ?_, ?_, ?_, ?_, ?_⟩
  · unfold parse_curation_response
    simp [ht, hms, hmi, hys,
      processBucket_safe processed_data ms hsm,
      processBucket_safe processed_data mi hsi,
      processBucket_safe processed_data ys hsy]
  · intro fs hfs
    simp [processVerdict, pyGetKey, hfs]
  · intro fs s hfs hs
    simp [processVerdict, pyGetKey, pyInt, hfs, hs]
  · intro fs n hfs hn
    have hk : pyGetKey (Json.obj fs) "idx" = Except.ok (Json.num n) := by
      simp [pyGetKey, hfs]
    simp only [processVerdict, hk, pyInt]
    rw [dif_neg]
    rcases hn with hn | hn <;> omega
  · intro fs n hfs h0 hn hre
    have hk : pyGetKey (Json.obj fs) "idx" = Except.ok (Json.num n) := by
      simp [pyGetKey, hfs]
    have hk2 : pyGetKey (Json.obj fs) "reason" = Except.error PyErr.keyError := by
      simp [pyGetKey, hre]
    simp only [processVerdict, hk, pyInt, hk2]
    rw [dif_pos ⟨h0, hn⟩]
  · intro fs n r h0 hn hfs hre
    have hk : pyGetKey (Json.obj fs) "idx" = Except.ok (Json.num n) := by
      simp [pyGetKey, hfs]
    have hk2 : pyGetKey (Json.obj fs) "reason" = Except.ok r := by
      simp [pyGetKey, hre]
    simp only [processVerdict, hk, pyInt, hk2]
    rw [dif_pos ⟨h0, hn⟩]

def cdata : List Record := [[("title", Json.str "a")], [("title", Json.str "b")]]

def vGood : Json := Json.obj [("idx", Json.num 1), ("reason", Json.str "good")]

def vBadStr : Json := Json.obj [("idx", Json.str "x"), ("reason", Json.str "bad")]

def vOut : Json := Json.obj [("idx", Json.num 5), ("reason", Json.str "out")]

def vNoReason : Json := Json.obj [("idx", Json.num 0)]

def cresp : Json := Json.obj [("must_see", Json.arr [vGood, vBadStr, vOut]),
  ("might_be_interested", Json.arr []), ("you_may_skip", Json.arr [vNoReason])]

theorem verdict_bounds_amended_witness :
    parse_curation_response (some cresp) cdata
      = Except.ok (some (CurationResult.mk (bucketOut cdata [vGood, vBadStr, vOut])
          (bucketOut cdata []) (bucketOut cdata [vNoReason]))) ∧
    bucketOut cdata [vGood, vBadStr, vOut]
      = [[("title", Json.str "b"), ("reason", Json.str "good")]] ∧
    bucketOut cdata [vNoReason] = [] :=
  ⟨(verdict_bounds_amended cdata cresp [vGood, vBadStr, vOut] [] [vNoReason]
      rfl rfl rfl rfl (by
        intro item him e hc
        simp only [List.mem_append, List.mem_cons, List.not_mem_nil, or_false,
          false_or] at him
        rcases him with (h | h | h) | h
        · rw [h] at hc
          rw [show processVerdict cdata vGood
              = Except.ok (some [("title", Json.str "b"), ("reason", Json.str "good")])
            from rfl] at hc
          simp at hc
        · rw [h] at hc
          rw [show processVerdict cdata vBadStr = Except.ok none from rfl] at hc
          simp at hc
        · rw [h] at hc
          rw [show processVerdict cdata vOut = Except.ok none from rfl] at hc
          simp at hc
        · rw [h] at hc
          rw [show processVerdict cdata vNoReason = Except.ok none from rfl] at hc
          simp at hc)).1,
   rfl, rfl⟩

/-! ## Claim C9 -/

theorem digit_not_space (ch : Char) (h : ch.isDigit = true) : isPySpace ch = false := by
  cases hb : isPySpace ch
  · rfl
  · have h2 := of_decide_eq_true hb
    rcases h2 with h1 | h1 | h1 | h1 <;> rw [h1] at h <;> exact absurd h (by decide)

theorem dropWhile_space_of_digits (l : List Char) (h : ∀ ch ∈ l, ch.isDigit = true) :
    l.dropWhile isPySpace = l := by
  cases l with
  | nil => rfl
  | cons ch t =>
    rw [List.dropWhile_cons, digit_not_space ch (h ch (List.mem_cons_self _ _))]
    simp

theorem stripChars_of_digits (l : List Char) (h : ∀ ch ∈ l, ch.isDigit = true) :
    stripChars l = l := by
  unfold stripChars
  rw [dropWhile_space_of_digits l h,
    dropWhile_space_of_digits l.reverse (fun ch hc => h ch (List.mem_reverse.mp hc))]
  exact List.reverse_reverse l

theorem isDigitString_toInt (s : String) (h : isDigitString s = true) :
    pyStrToInt s = some ((digitsVal s.data : Nat) : Int) := by
  have hne : s.data ≠ [] := by
    intro hc
    simp [isDigitString, hc] at h
  have hall : ∀ ch ∈ s.data, ch.isDigit = true := by
    intro ch hc
    have h2 := (Bool.and_eq_true _ _).mp h
    exact List.all_eq_true.mp h2.2 ch hc
  have hhd : ∀ c : Char, s.data.head? = some c → c.isDigit = true := by
    intro c hc
    exact hall c (List.mem_of_mem_head? hc)
  have hm : ¬ (s.data.head? = some '-') := by
    intro hc
    exact absurd (hhd '-' hc) (by decide)
  have hp : ¬ (s.data.head? = some '+') := by
    intro hc
    exact absurd (hhd '+' hc) (by decide)
  have hie : ¬ (s.data.isEmpty = true) := by
    simpa [List.isEmpty_iff] using hne
  unfold pyStrToInt
  rw [stripChars_of_digits s.data hall, if_neg hie, if_neg hm, if_neg hp,
    if_pos (List.all_eq_true.mpr hall)]

/-- C9: duration parsing: "1h 30m" maps to 5400, "45s" to 45, "90" to 90,
"2m 15s" to 135; an integer input is returned unchanged; and a string with no
recognizable hour/minute/second unit group and no bare-integer reading (its
int() parse fails) yields 0. -/
theorem duration_parsing :
    parse_duration_to_seconds (DurVal.str "1h 30m") = 5400 ∧
    parse_duration_to_seconds (DurVal.str "45s") = 45 ∧
    parse_duration_to_seconds (DurVal.str "90") = 90 ∧
    parse_duration_to_seconds (DurVal.str "2m 15s") = 135 ∧
    (∀ n : Int, parse_duration_to_seconds (DurVal.int n) = n) ∧
    (∀ s : String, findUnit 'h' s.data = none → findUnit 'm' s.data = none →
      findUnit 's' s.data = none → pyStrToInt s = none →
      parse_duration_to_seconds (DurVal.str s) = 0) := by
  refine ⟨by decide, by decide, by decide, by decide, fun n => rfl, ?_⟩
  intro s h1 h2 h3 h4
  have hds : isDigitString s = false := by
    cases hb : isDigitString s
    · rfl
    · rw [isDigitString_toInt s hb] at h4
      simp at h4
  unfold parse_duration_to_seconds
  simp only [hds, Bool.false_eq_true, if_false, h1, h2, h3, Option.getD_none]
  by_cases hstrip : stripChars s.data = []
  · simp [hstrip]
  · simp [hstrip, h4]

theorem duration_parsing_witness :
    parse_duration_to_seconds (DurVal.str "hello") = 0 :=
  duration_parsing.2.2.2.2.2 "hello" (by decide) (by decide) (by decide) (by decide)

theorem dedup_invariant_claim_witness :
    (deduplicate_current_entries
      [Entry.mk "a" "1" "", Entry.mk "b" "2" "", Entry.mk "a" "3" ""]).length
      = ([Entry.mk "a" "1" "", Entry.mk "b" "2" "", Entry.mk "a" "3" ""].map
          Entry.channel).toFinset.card :=
  (dedup_invariant_claim _).1

theorem classifier_all_or_nothing_witness :
    curate_main (some cdata) none = none :=
  (classifier_all_or_nothing (some cdata) cdata).2.2
